import Mathlib

/-!
Verification development for the autoregressive decoding loop, the
generation adapter and the benchmark harness of this repository
(`examples/opt/model/test_text_gen.py` and
`benchmark/parax/benchmark_gpt_bert.py`).

The embedding is shallow: pure program fragments become Lean functions,
the per-episode closure state (the nonlocal step counter of the
distributed backend) becomes an explicitly threaded state component, and
Python failure modes (UnboundLocalError, IndexError, RuntimeError)
become explicit error values.  `input_ids` is represented by the list of
its width-1 column slices, since the decoding loop only ever consumes
the slices `input_ids[:, i:i+1]`.
-/

set_option maxHeartbeats 1000000

namespace TextGen

/-- Output record of one inference call, mirroring the
`InferenceFuncOutput` dataclass of `test_text_gen.py` (every field
defaults to `None`). -/
structure InferenceFuncOutput (Logits Cache Hidden Attn : Type) where
  logits : Option Logits := none
  past_key_values : Option Cache := none
  hidden_states : Option Hidden := none
  attentions : Option Attn := none

/-- Shape of an `inference_func` backend: a column slice of `input_ids`,
an optional cache, the two output flags, and the backend's private
closure state (`Unit` for the stateless single-device backends, the
step counter for the distributed one). -/
def IFunc (Col Logits Cache Hidden Attn σ : Type) : Type :=
  Col → Option Cache → Option Bool → Option Bool → σ →
    InferenceFuncOutput Logits Cache Hidden Attn × σ

variable {Col Logits Cache Hidden Attn σ : Type}

/-- Loop of `WrappedInferenceFunc.__call__`: iterate over the column
slices, calling `inference_func` on each slice with the cache
accumulated so far, replacing the cache by the returned
`past_key_values` after every call.  The `ret` accumulator is `none`
until the body has run at least once; a final `none` models the
`UnboundLocalError` raised by `return ret` when the loop body never
executed. -/
def wrappedCallLoop (f : IFunc Col Logits Cache Hidden Attn σ)
    (oh oa : Option Bool) :
    List Col → Option Cache → σ →
      Option (InferenceFuncOutput Logits Cache Hidden Attn) →
      Option (InferenceFuncOutput Logits Cache Hidden Attn) × σ
  | [], _, s, ret => (ret, s)
  | t :: ts, past, s, _ =>
    let r := f t past oh oa s
    wrappedCallLoop f oh oa ts r.1.past_key_values r.2 (some r.1)

/-- `WrappedInferenceFunc.__call__`, with the closure state threaded
explicitly. -/
def wrappedCall (f : IFunc Col Logits Cache Hidden Attn σ)
    (ids : List Col) (past : Option Cache) (oh oa : Option Bool) (s : σ) :
    Option (InferenceFuncOutput Logits Cache Hidden Attn) × σ :=
  wrappedCallLoop f oh oa ids past s none

/-- Trace of the calls issued by `wrappedCall`: the i-th entry records
the column slice, the cache argument and the closure state handed to
the i-th invocation of `inference_func`. -/
def callTrace (f : IFunc Col Logits Cache Hidden Attn σ)
    (oh oa : Option Bool) :
    List Col → Option Cache → σ → List (Col × Option Cache × σ)
  | [], _, _ => []
  | t :: ts, past, s =>
    let r := f t past oh oa s
    (t, past, s) :: callTrace f oh oa ts r.1.past_key_values r.2

/-- Configuration of the distributed OPT model, holding the fields this
repository's code reads: the padding length used for position ids, the
maximum sequence length the cache is sized for, and the hyperparameters
the harness prints. -/
structure OPTConfig where
  pad : ℕ
  max_target_positions : ℕ
  decoder_layers : ℕ
  decoder_input_dim : ℕ
  decoder_attention_heads : ℕ

/-- Modelled from the spec: one per-layer attention cache entry of the
distributed backend — accumulated key/value buffers of fixed maximum
capacity together with the current fill pointer.  The concrete cache
arrays are produced by `init_cache_dis_array` and the executable, which
are not part of the provided sources. -/
structure CacheEntry where
  keys : List ℤ
  values : List ℤ
  fillPointer : ℕ

/-- Attention cache of the distributed backend: one entry per decoder
layer. -/
structure AlpaCache where
  layers : List CacheEntry

/-- Capacity of one key (or value) buffer, derived from the model
configuration. -/
def cacheCapacity (config : OPTConfig) : ℕ :=
  config.max_target_positions * config.decoder_input_dim

/-- Modelled from the spec: `init_cache_dis_array` is not under the
provided sources; the spec describes the initial cache as zero-filled
per-layer key/value buffers whose shape is derived from the model
configuration, with fill pointer zero. -/
def init_cache_dis_array (config : OPTConfig) : AlpaCache :=
  ⟨List.replicate config.decoder_layers
    ⟨List.replicate (cacheCapacity config) 0,
     List.replicate (cacheCapacity config) 0, 0⟩⟩

/-- Input record handed to the distributed executable: the feed dict
built by the distributed backend's `inference_func`. -/
structure ExecInput where
  input_ids : List ℤ
  position_ids : List ℤ
  cache : AlpaCache

/-- Output record of the distributed executable (`run`): logits, the
updated attention cache and the optional diagnostics. -/
structure ExecOutput (Logits Hidden Attn : Type) where
  logits : Logits
  attention_cache : AlpaCache
  hidden_states : Option Hidden
  attentions : Option Attn

/-- `np.full_like`: an array of the same shape filled with one value. -/
def fullLike (xs : List ℤ) (v : ℤ) : List ℤ := xs.map (fun _ => v)

/-- Effective step count used by the distributed `inference_func`: zero
when no prior cache was supplied (the counter is reset), the current
counter otherwise. -/
def alpaEffStep (past : Option AlpaCache) (step_ct : ℕ) : ℕ :=
  match past with
  | none => 0
  | some _ => step_ct

/-- Effective cache used by the distributed `inference_func`: the
closure's initial cache when no prior cache was supplied, the supplied
one otherwise. -/
def alpaEffCache (init_cache : AlpaCache) (past : Option AlpaCache) :
    AlpaCache :=
  match past with
  | none => init_cache
  | some c => c

/-- Packaging of an executable output as an `InferenceFuncOutput`, as
done by the distributed backend's return statement. -/
def execToOutput {Logits Hidden Attn : Type}
    (o : ExecOutput Logits Hidden Attn) :
    InferenceFuncOutput Logits AlpaCache Hidden Attn :=
  ⟨some o.logits, some o.attention_cache, o.hidden_states, o.attentions⟩

/-- The distributed (`alpa/opt`) backend's `inference_func`.  The
nonlocal `step_ct` of the source closure is the explicit `ℕ` state; the
executable, its parameters and the closure's `init_cache` are the
captured values of the closure. -/
def alpaInferenceFunc {Params Logits Hidden Attn : Type}
    (executable : Params → ExecInput → ExecOutput Logits Hidden Attn)
    (params : Params) (config : OPTConfig) (init_cache : AlpaCache) :
    IFunc (List ℤ) Logits AlpaCache Hidden Attn ℕ :=
  fun input_ids past_key_values _oh _oa step_ct =>
    let eff : AlpaCache × ℕ :=
      match past_key_values with
      | none => (init_cache, 0)
      | some c => (c, step_ct)
    let input_ids_step := input_ids
    let position_ids_step :=
      fullLike input_ids_step ((eff.2 + config.pad + 1 : ℕ) : ℤ)
    let output := executable params ⟨input_ids_step, position_ids_step, eff.1⟩
    (⟨some output.logits, some output.attention_cache,
      output.hidden_states, output.attentions⟩, eff.2 + 1)

/-- Python errors this code can raise, as explicit values. -/
inductive PyError where
  | runtimeError (msg : String)
  | unboundLocalError (nm : String)
  | indexError
deriving DecidableEq

/-- Result dict of `prepare_inputs_for_generation`. -/
structure PreparedInputs (Col Cache : Type) where
  input_ids : List Col
  past_key_values : Option Cache

/-- Python truthiness of the optional `past` argument: `None` is falsy;
the cache objects the backends actually produce (tuples of per-layer
tensors for the torch models, which have at least one decoder layer,
and the distributed cache arrays) are truthy. -/
def cacheTruthy {Cache : Type} : Option Cache → Bool
  | none => false
  | some _ => true

/-- `WrappedInferenceFunc.prepare_inputs_for_generation`: keep only the
last column of `input_ids` (as a width-1 column) when `past` is truthy,
the whole sequence otherwise; pass `past` through unchanged.  Indexing
`input_ids[:, -1]` on a zero-column tensor raises `IndexError`. -/
def prepare_inputs_for_generation {Col Cache : Type}
    (input_ids : List Col) (past : Option Cache) :
    Except PyError (PreparedInputs Col Cache) :=
  if cacheTruthy past then
    match input_ids.getLast? with
    | some t => .ok ⟨[t], past⟩
    | none => .error .indexError
  else
    .ok ⟨input_ids, past⟩

/-- Leading-match test on character lists: the first list is a prefix of
the second. -/
def leadMatch : List Char → List Char → Bool
  | [], _ => true
  | _ :: _, [] => false
  | n :: ns, h :: hs => n == h && leadMatch ns hs

/-- Substring occurrence test on character lists. -/
def hasSub (needle : List Char) : List Char → Bool
  | [] => leadMatch needle []
  | c :: cs => leadMatch needle (c :: cs) || hasSub needle cs

/-- Python's `needle in hay` on strings. -/
def strContains (hay needle : String) : Bool :=
  hasSub needle.toList hay.toList

/-- Python's `str.split` on the dash character (keeps empty groups,
returns one empty group for the empty string). -/
def splitDash : List Char → List (List Char)
  | [] => [[]]
  | c :: cs =>
    if c == '-' then [] :: splitDash cs
    else
      match splitDash cs with
      | [] => [[c]]
      | g :: gs => (c :: g) :: gs

/-- Tag naming which `inference_func` closure `get_model` built. -/
inductive IFuncTag where
  | gptFunc
  | optFunc
  | alpaFunc
deriving DecidableEq

/-- Tag naming which configuration object a branch of `get_model`
bound. -/
inductive CfgTag where
  | gptRawConfig
  | optIfcConfig
  | defaultIfcConfig
  | optRawConfig
  | alpaConfig
deriving DecidableEq

/-- Tag for the distributed executable bound by the `alpa/opt`
branch. -/
inductive ExecTag where
  | pipeshardExec
deriving DecidableEq

/-- The adapter object `get_model` returns: the four constructor
arguments of `WrappedInferenceFunc`. -/
structure WrappedInferenceFunc where
  inference_func : IFuncTag
  config : CfgTag
  executable : ExecTag
  model_config : CfgTag
deriving DecidableEq

/-- The final statement of `get_model` evaluates the four local names
left to right; the first one the taken branch did not bind raises
`UnboundLocalError`. -/
def bindLocals (inf : Option IFuncTag) (cfg : Option CfgTag)
    (ex : Option ExecTag) (mc : Option CfgTag) :
    Except PyError WrappedInferenceFunc :=
  match inf with
  | none => .error (.unboundLocalError "inference_func")
  | some i =>
    match cfg with
    | none => .error (.unboundLocalError "inference_func_config")
    | some c =>
      match ex with
      | none => .error (.unboundLocalError "executable")
      | some e =>
        match mc with
        | none => .error (.unboundLocalError "model_config")
        | some m => .ok ⟨i, c, e, m⟩

/-- `get_model`: branch on the model-name substring, bind the locals of
the taken branch, then build the adapter.  The external library calls
(model loading, `alpa.init`, `get_config`, executable compilation) are
treated as succeeding; only the control flow and local bindings of the
provided source are modelled.  `executable` is bound only by the
`alpa/opt` branch. -/
def get_model (model_name device : String) (dummy : Bool)
    (cluster : String) : Except PyError WrappedInferenceFunc :=
  if strContains model_name "gpt" then
    bindLocals (some .gptFunc) (some .gptRawConfig) none (some .gptRawConfig)
  else if strContains model_name "facebook/opt" then
    bindLocals (some .optFunc) (some .optIfcConfig) none (some .optRawConfig)
  else if strContains model_name "alpa/opt" then
    match (splitDash model_name.toList)[1]? with
    | none => .error .indexError
    | some _ =>
      if cluster == "aws" then
        bindLocals (some .alpaFunc) (some .defaultIfcConfig)
          (some .pipeshardExec) (some .alpaConfig)
      else if cluster == "mbzuai" then
        bindLocals (some .alpaFunc) (some .defaultIfcConfig)
          (some .pipeshardExec) (some .alpaConfig)
      else
        .error (.runtimeError "Unrecognized cluster.")
  else
    bindLocals none none none none

/-- `np.prod` of a shape tuple. -/
def npProd (shape : List ℕ) : ℕ := shape.foldl (fun a b => a * b) 1

/-- Reported generation speed of the harness main loop:
`np.prod(generated_ids.shape) / latency`.  The Python float arithmetic
is modelled exactly over the rationals. -/
def benchSpeed (generatedShape : List ℕ) (latency : ℚ) : ℚ :=
  (npProd generatedShape : ℚ) / latency

/-- `compute_tflops` of `benchmark/parax/benchmark_gpt_bert.py`,
modelled exactly over the rationals. -/
def compute_tflops (batch_size seq_len num_layers hidden_size vocab_size
    num_gpus latency : ℚ) (checkpoint_activations : Bool) : ℚ :=
  let factor : ℚ := if checkpoint_activations then 96 else 72
  let total_flop := factor * batch_size * seq_len * hidden_size ^ 2 *
      num_layers * (1 + seq_len / (6 * hidden_size)) +
    6 * batch_size * seq_len * hidden_size * vocab_size
  total_flop / latency / num_gpus / 1000000000000

/-- The closed-form throughput formula exactly as the specification
states it, for comparison with `compute_tflops`. -/
def tflopsClaimFormula (B S L H V G t : ℚ) (ca : Bool) : ℚ :=
  ((if ca then (96 : ℚ) else 72) * B * S * H ^ 2 * L * (1 + S / (6 * H)) +
    6 * B * S * H * V) / t / G / 1000000000000

/-- Sample configuration used by witness statements. -/
def cfgW : OPTConfig := ⟨1, 2048, 12, 768, 12⟩

/-- Sample executable used by witness statements: echoes its input ids
as logits and returns an empty cache. -/
def exW : Unit → ExecInput → ExecOutput (List ℤ) Unit Unit :=
  fun _ inp => ⟨inp.input_ids, ⟨[]⟩, none, none⟩

/-- Sample inference function used by witness statements. -/
def fW : IFunc ℕ ℕ ℕ Unit Unit ℕ :=
  fun t c _ _ s => (⟨some t, some (t + c.getD 0), none, none⟩, s + 1)

theorem callTrace_nil (f : IFunc Col Logits Cache Hidden Attn σ)
    (oh oa : Option Bool) (past : Option Cache) (s : σ) :
    callTrace f oh oa [] past s = [] := rfl

theorem callTrace_cons (f : IFunc Col Logits Cache Hidden Attn σ)
    (oh oa : Option Bool) (t : Col) (ts : List Col)
    (past : Option Cache) (s : σ) :
    callTrace f oh oa (t :: ts) past s =
      (t, past, s) ::
        callTrace f oh oa ts (f t past oh oa s).1.past_key_values
          (f t past oh oa s).2 := rfl

theorem callTrace_length (f : IFunc Col Logits Cache Hidden Attn σ)
    (oh oa : Option Bool) (ids : List Col) (past : Option Cache) (s : σ) :
    (callTrace f oh oa ids past s).length = ids.length := by
  induction ids generalizing past s with
  | nil => rfl
  | cons t ts ih => simp [callTrace_cons, ih]

theorem callTrace_tokens (f : IFunc Col Logits Cache Hidden Attn σ)
    (oh oa : Option Bool) (ids : List Col) (past : Option Cache) (s : σ)
    (i : ℕ) :
    ((callTrace f oh oa ids past s)[i]?).map (fun x => x.1) = ids[i]? := by
  induction ids generalizing past s i with
  | nil => simp [callTrace_nil]
  | cons t ts ih =>
    cases i with
    | zero => simp [callTrace_cons]
    | succ j => simp [callTrace_cons, ih]

theorem callTrace_chain (f : IFunc Col Logits Cache Hidden Attn σ)
    (oh oa : Option Bool) (ids : List Col) (past : Option Cache) (s : σ)
    (i : ℕ) (x y : Col × Option Cache × σ)
    (hx : (callTrace f oh oa ids past s)[i]? = some x)
    (hy : (callTrace f oh oa ids past s)[i + 1]? = some y) :
    y.2.1 = (f x.1 x.2.1 oh oa x.2.2).1.past_key_values ∧
      y.2.2 = (f x.1 x.2.1 oh oa x.2.2).2 := by
  induction ids generalizing past s i with
  | nil => simp [callTrace_nil] at hx
  | cons t ts ih =>
    cases i with
    | zero =>
      rw [callTrace_cons] at hx hy
      simp at hx
      cases ts with
      | nil => simp [callTrace_nil] at hy
      | cons u us =>
        rw [callTrace_cons] at hy
        simp at hy
        subst hx
        simp [← hy]
    | succ j =>
      rw [callTrace_cons] at hx hy
      simp at hx hy
      exact ih _ _ j hx hy

theorem wrappedCallLoop_cons_ret (f : IFunc Col Logits Cache Hidden Attn σ)
    (oh oa : Option Bool) (t : Col) (ts : List Col)
    (past : Option Cache) (s : σ)
    (ret : Option (InferenceFuncOutput Logits Cache Hidden Attn)) :
    wrappedCallLoop f oh oa (t :: ts) past s ret =
      wrappedCall f (t :: ts) past oh oa s := rfl

theorem wrappedCall_last (f : IFunc Col Logits Cache Hidden Attn σ)
    (oh oa : Option Bool) (ids : List Col) (past : Option Cache) (s : σ)
    (h : ids ≠ []) :
    ∃ x, (callTrace f oh oa ids past s).getLast? = some x ∧
      (wrappedCall f ids past oh oa s).1 =
        some (f x.1 x.2.1 oh oa x.2.2).1 := by
  induction ids generalizing past s with
  | nil => exact absurd rfl h
  | cons t ts ih =>
    cases ts with
    | nil =>
      refine ⟨(t, past, s), ?_, ?_⟩
      · simp [callTrace_cons, callTrace_nil]
      · rfl
    | cons u us =>
      obtain ⟨x, hx1, hx2⟩ :=
        ih (f t past oh oa s).1.past_key_values (f t past oh oa s).2
          (by simp)
      refine ⟨x, ?_, ?_⟩
      · rw [callTrace_cons, callTrace_cons, List.getLast?_cons_cons,
          ← callTrace_cons]
        exact hx1
      · calc (wrappedCall f (t :: u :: us) past oh oa s).1
            = (wrappedCallLoop f oh oa (u :: us)
                (f t past oh oa s).1.past_key_values (f t past oh oa s).2
                (some (f t past oh oa s).1)).1 := rfl
          _ = (wrappedCall f (u :: us) (f t past oh oa s).1.past_key_values
                oh oa (f t past oh oa s).2).1 := by
                rw [wrappedCallLoop_cons_ret]
          _ = some (f x.1 x.2.1 oh oa x.2.2).1 := hx2

theorem wrappedCall_nil (f : IFunc Col Logits Cache Hidden Attn σ)
    (oh oa : Option Bool) (past : Option Cache) (s : σ) :
    (wrappedCall f [] past oh oa s).1 = none := rfl

theorem alpaInferenceFunc_eq {Params Logits Hidden Attn : Type}
    (E : Params → ExecInput → ExecOutput Logits Hidden Attn) (P : Params)
    (config : OPTConfig) (ic : AlpaCache) (ids : List ℤ)
    (past : Option AlpaCache) (oh oa : Option Bool) (s : ℕ) :
    alpaInferenceFunc E P config ic ids past oh oa s =
      (execToOutput (E P
        ⟨ids, fullLike ids ((alpaEffStep past s + config.pad + 1 : ℕ) : ℤ),
         alpaEffCache ic past⟩),
       alpaEffStep past s + 1) := by
  cases past <;> rfl

theorem alpaLoop_state {Params Logits Hidden Attn : Type}
    (E : Params → ExecInput → ExecOutput Logits Hidden Attn) (P : Params)
    (config : OPTConfig) (ic : AlpaCache) (oh oa : Option Bool)
    (toks : List (List ℤ)) (c : AlpaCache) (s : ℕ)
    (ret : Option (InferenceFuncOutput Logits AlpaCache Hidden Attn)) :
    (wrappedCallLoop (alpaInferenceFunc E P config ic) oh oa toks (some c) s
      ret).2 = s + toks.length := by
  induction toks generalizing c s ret with
  | nil => simp [wrappedCallLoop]
  | cons t ts ih =>
    have hr := alpaInferenceFunc_eq E P config ic t (some c) oh oa s
    simp only [wrappedCallLoop, hr, execToOutput, alpaEffStep, alpaEffCache]
    rw [ih]
    simp [Nat.add_comm, Nat.add_assoc, Nat.add_left_comm]

theorem alpaEffStep_some (c : AlpaCache) (s : ℕ) :
    alpaEffStep (some c) s = s := rfl

theorem alpaEffStep_none (s : ℕ) : alpaEffStep none s = 0 := rfl

theorem alpaTrace_some {Params Logits Hidden Attn : Type}
    (E : Params → ExecInput → ExecOutput Logits Hidden Attn) (P : Params)
    (config : OPTConfig) (ic : AlpaCache) (oh oa : Option Bool)
    (toks : List (List ℤ)) (c : AlpaCache) (s : ℕ) :
    (callTrace (alpaInferenceFunc E P config ic) oh oa toks (some c) s).map
        (fun x => alpaEffStep x.2.1 x.2.2) = List.range' s toks.length := by
  induction toks generalizing c s with
  | nil => simp [callTrace_nil]
  | cons t ts ih =>
    rw [callTrace_cons]
    have hr := alpaInferenceFunc_eq E P config ic t (some c) oh oa s
    simp only [hr, execToOutput, alpaEffStep_some, List.map_cons,
      List.length_cons]
    rw [ih]
    rw [List.range'_succ]

theorem alpaTrace_none {Params Logits Hidden Attn : Type}
    (E : Params → ExecInput → ExecOutput Logits Hidden Attn) (P : Params)
    (config : OPTConfig) (ic : AlpaCache) (oh oa : Option Bool)
    (toks : List (List ℤ)) (s0 : ℕ) :
    (callTrace (alpaInferenceFunc E P config ic) oh oa toks none s0).map
        (fun x => alpaEffStep x.2.1 x.2.2) = List.range toks.length := by
  cases toks with
  | nil => simp [callTrace_nil]
  | cons t ts =>
    rw [callTrace_cons]
    have hr := alpaInferenceFunc_eq E P config ic t none oh oa s0
    simp only [hr, execToOutput, alpaEffStep_none, List.map_cons,
      List.length_cons]
    rw [alpaTrace_some]
    rw [List.range_eq_range', List.range'_succ]

/-- C1: `WrappedInferenceFunc.__call__` on a batch with N ≥ 1 token
positions invokes `inference_func` exactly N times in position order:
the i-th call receives only the single column slice at position i
together with the cache produced by call i-1 (the caller-supplied
`past_key_values` for i = 0), the cache is replaced by the returned one
after every call, and the value returned to the caller is exactly the
result of the final call — every intermediate call's output is
discarded. -/
theorem wrappedCall_token_by_token
    (f : IFunc Col Logits Cache Hidden Attn σ) (oh oa : Option Bool)
    (ids : List Col) (past : Option Cache) (s : σ) (h : ids ≠ []) :
    (callTrace f oh oa ids past s).length = ids.length ∧
    (∀ i : ℕ, ((callTrace f oh oa ids past s)[i]?).map
      (fun x : Col × Option Cache × σ => x.1) = ids[i]?) ∧
    ((callTrace f oh oa ids past s)[0]?).map
      (fun x : Col × Option Cache × σ => x.2.1) = some past ∧
    (∀ (i : ℕ) (x y : Col × Option Cache × σ),
      (callTrace f oh oa ids past s)[i]? = some x →
      (callTrace f oh oa ids past s)[i + 1]? = some y →
      y.2.1 = (f x.1 x.2.1 oh oa x.2.2).1.past_key_values ∧
        y.2.2 = (f x.1 x.2.1 oh oa x.2.2).2) ∧
    (∃ x, (callTrace f oh oa ids past s).getLast? = some x ∧
      (wrappedCall f ids past oh oa s).1 =
        some (f x.1 x.2.1 oh oa x.2.2).1) := by
  refine ⟨callTrace_length f oh oa ids past s,
    fun i => callTrace_tokens f oh oa ids past s i, ?_,
    fun i x y hx hy => callTrace_chain f oh oa ids past s i x y hx hy,
    wrappedCall_last f oh oa ids past s h⟩
  cases ids with
  | nil => exact absurd rfl h
  | cons t ts => simp [callTrace_cons]

theorem wrappedCall_token_by_token_witness :
    (callTrace fW none none [1, 2] none 0).length = 2 :=
  (wrappedCall_token_by_token fW none none [1, 2] none 0 (by decide)).1

/-- C10: when `input_ids` has zero token positions the loop body of
`WrappedInferenceFunc.__call__` never executes and the function fails
(the `return ret` raises `UnboundLocalError`, modelled as `none`); for
every non-empty input a result is returned. -/
theorem wrappedCall_empty_input
    (f : IFunc Col Logits Cache Hidden Attn σ) (oh oa : Option Bool)
    (past : Option Cache) (s : σ) :
    (wrappedCall f [] past oh oa s).1 = none ∧
    ∀ ids : List Col, ids ≠ [] →
      ∃ out, (wrappedCall f ids past oh oa s).1 = some out := by
  refine ⟨rfl, fun ids h => ?_⟩
  obtain ⟨x, _, hx⟩ := wrappedCall_last f oh oa ids past s h
  exact ⟨_, hx⟩

theorem wrappedCall_empty_input_witness :
    ∃ out, (wrappedCall fW [5] none none none 0).1 = some out :=
  (wrappedCall_empty_input fW none none none 0).2 [5] (by decide)

/-- C3: `prepare_inputs_for_generation` returns only the most recently
appended token — the last column, as a width-1 column — when a past
cache exists, returns the full input sequence when there is no past
cache, and passes the cache through unchanged under
`past_key_values`. -/
theorem prepare_inputs_last_token {Col Cache : Type}
    (input_ids : List Col) (past : Option Cache) :
    (past = none →
      prepare_inputs_for_generation input_ids past =
        .ok ⟨input_ids, none⟩) ∧
    (∀ c t, past = some c → input_ids.getLast? = some t →
      prepare_inputs_for_generation input_ids past =
        .ok ⟨[t], some c⟩) := by
  constructor
  · rintro rfl
    rfl
  · rintro c t rfl ht
    simp [prepare_inputs_for_generation, cacheTruthy, ht]

theorem prepare_inputs_last_token_witness :
    prepare_inputs_for_generation [10, 20, 30] (some (7 : ℕ)) =
      .ok ⟨[(30 : ℕ)], some 7⟩ :=
  (prepare_inputs_last_token [10, 20, 30] (some 7)).2 7 30 rfl (by decide)

/-- C4: the distributed backend's `inference_func` substitutes the
configuration-derived initial cache and resets the step counter to
zero before issuing the executable call whenever it is called without a
cache, every call increments the counter by exactly one (from the
effective step after any reset), and after K single-token calls
starting from an empty cache, K at most the configured maximum
sequence length, the counter equals exactly K. -/
theorem alpa_step_counter_spec {Params Logits Hidden Attn : Type}
    (E : Params → ExecInput → ExecOutput Logits Hidden Attn) (P : Params)
    (config : OPTConfig) (oh oa : Option Bool) :
    (∀ ids s,
      alpaInferenceFunc E P config (init_cache_dis_array config) ids none
          oh oa s =
        (execToOutput (E P
          ⟨ids, fullLike ids ((0 + config.pad + 1 : ℕ) : ℤ),
           init_cache_dis_array config⟩), 0 + 1)) ∧
    (∀ ids past s,
      (alpaInferenceFunc E P config (init_cache_dis_array config) ids past
          oh oa s).2 = alpaEffStep past s + 1) ∧
    (∀ toks s0, toks ≠ [] →
      toks.length ≤ config.max_target_positions →
      (wrappedCall
        (alpaInferenceFunc E P config (init_cache_dis_array config)) toks
        none oh oa s0).2 = toks.length) := by
  refine ⟨fun ids s => alpaInferenceFunc_eq E P config _ ids none oh oa s,
    fun ids past s => by rw [alpaInferenceFunc_eq],
    fun toks s0 h hlen => ?_⟩
  cases toks with
  | nil => exact absurd rfl h
  | cons t ts =>
    have hr := alpaInferenceFunc_eq E P config (init_cache_dis_array config)
      t none oh oa s0
    show (wrappedCallLoop _ oh oa (t :: ts) none s0 none).2 = ts.length + 1
    simp only [wrappedCallLoop, hr, execToOutput, alpaEffStep]
    rw [alpaLoop_state]
    omega

theorem alpa_step_counter_spec_witness :
    (wrappedCall
      (alpaInferenceFunc exW () cfgW (init_cache_dis_array cfgW)) [[1]]
      none none none 5).2 = 1 :=
  (alpa_step_counter_spec exW () cfgW none none).2.2 [[1]] 5 (by decide)
    (by decide)

/-- C5: in the distributed backend's `inference_func`, the position ids
handed to the executable are filled with the value
step count + pad + 1 (the effective step after any `None` reset), and
across the consecutive calls of one episode the position value takes
pad + 1, pad + 2, ... — it increments in lock-step, one per call. -/
theorem alpa_position_ids_spec {Params Logits Hidden Attn : Type}
    (E : Params → ExecInput → ExecOutput Logits Hidden Attn) (P : Params)
    (config : OPTConfig) (ic : AlpaCache) (oh oa : Option Bool) :
    (∀ ids past s,
      alpaInferenceFunc E P config ic ids past oh oa s =
        (execToOutput (E P
          ⟨ids,
           fullLike ids ((alpaEffStep past s + config.pad + 1 : ℕ) : ℤ),
           alpaEffCache ic past⟩),
         alpaEffStep past s + 1)) ∧
    (∀ toks s0,
      (callTrace (alpaInferenceFunc E P config ic) oh oa toks none s0).map
          (fun x => alpaEffStep x.2.1 x.2.2 + config.pad + 1) =
        (List.range toks.length).map (fun i => i + config.pad + 1)) := by
  refine ⟨fun ids past s => alpaInferenceFunc_eq E P config ic ids past oh
    oa s, fun toks s0 => ?_⟩
  have h := alpaTrace_none E P config ic oh oa toks s0
  calc (callTrace (alpaInferenceFunc E P config ic) oh oa toks none
        s0).map (fun x => alpaEffStep x.2.1 x.2.2 + config.pad + 1)
      = ((callTrace (alpaInferenceFunc E P config ic) oh oa toks none
          s0).map (fun x => alpaEffStep x.2.1 x.2.2)).map
          (fun i => i + config.pad + 1) := by
        rw [List.map_map]
        rfl
    _ = (List.range toks.length).map (fun i => i + config.pad + 1) := by
        rw [h]

/-- C6: calling the distributed `inference_func` with no prior cache is
observationally equivalent, for every input token and every current
counter value, to calling it with the freshly-reset cache — per-layer
zero-filled key/value buffers of the configuration-derived shape with
fill pointer zero — while the step counter is zero. -/
theorem alpa_none_cache_eq_fresh_cache {Params Logits Hidden Attn : Type}
    (E : Params → ExecInput → ExecOutput Logits Hidden Attn) (P : Params)
    (config : OPTConfig) (oh oa : Option Bool) :
    ∀ ids s,
      alpaInferenceFunc E P config (init_cache_dis_array config) ids none
          oh oa s =
        alpaInferenceFunc E P config (init_cache_dis_array config) ids
          (some ⟨List.replicate config.decoder_layers
            ⟨List.replicate (cacheCapacity config) 0,
             List.replicate (cacheCapacity config) 0, 0⟩⟩) oh oa 0 := by
  intro ids s
  rfl

/-- C2: evaluation of `get_model` on each of the three recognized model
families.  The claim that all three branches complete normally fails on
the code: the `gpt` and `facebook/opt` branches never bind the local
`executable`, so the final `WrappedInferenceFunc(...)` call raises
`UnboundLocalError`; only the `alpa/opt` branch returns the adapter
with all four fields populated. -/
theorem get_model_three_backends :
    get_model "gpt2" "cpu" false "aws" =
      .error (.unboundLocalError "executable") ∧
    get_model "facebook/opt-1.3b" "cpu" false "aws" =
      .error (.unboundLocalError "executable") ∧
    get_model "alpa/opt-125m" "cuda" false "aws" =
      .ok ⟨.alpaFunc, .defaultIfcConfig, .pipeshardExec, .alpaConfig⟩ :=
  ⟨rfl, rfl, rfl⟩

/-- C7: `get_model` raises `RuntimeError("Unrecognized cluster.")` for
an unrecognized cluster identifier on the distributed branch, and
raises an unrecoverable error (`UnboundLocalError` on the first local
evaluated by the return statement) for a model name matching none of
the three recognized families, instead of returning a usable
adapter. -/
theorem get_model_config_errors :
    (∀ model_name device dummy cluster,
      strContains model_name "gpt" = false →
      strContains model_name "facebook/opt" = false →
      strContains model_name "alpa/opt" = true →
      ((splitDash model_name.toList)[1]?).isSome = true →
      cluster ≠ "aws" → cluster ≠ "mbzuai" →
      get_model model_name device dummy cluster =
        .error (.runtimeError "Unrecognized cluster.")) ∧
    (∀ model_name device dummy cluster,
      strContains model_name "gpt" = false →
      strContains model_name "facebook/opt" = false →
      strContains model_name "alpa/opt" = false →
      get_model model_name device dummy cluster =
        .error (.unboundLocalError "inference_func")) := by
  constructor
  · intro mn dv dm cl h1 h2 h3 hp h4 h5
    obtain ⟨p, hp⟩ := Option.isSome_iff_exists.mp hp
    have hp2 : (splitDash mn.data)[1]? = some p := hp
    simp [get_model, h1, h2, h3, hp2, h4, h5]
  · intro mn dv dm cl h1 h2 h3
    simp [get_model, h1, h2, h3, bindLocals]

theorem get_model_config_errors_witness :
    get_model "alpa/opt-125m" "cuda" false "gcp" =
      .error (.runtimeError "Unrecognized cluster.") ∧
    get_model "resnet50" "cuda" false "aws" =
      .error (.unboundLocalError "inference_func") :=
  ⟨get_model_config_errors.1 "alpa/opt-125m" "cuda" false "gcp"
      (by decide) (by decide) (by decide) (by decide) (by decide)
      (by decide),
   get_model_config_errors.2 "resnet50" "cuda" false "aws"
      (by decide) (by decide) (by decide)⟩

/-- C8: the harness reports throughput as
`np.prod(generated_ids.shape) / latency`; for the generated shape
(1, 256) — 256 generated tokens at batch size 1 — and a latency of
2.0 seconds the reported speed is exactly 128 tokens per second. -/
theorem bench_speed_throughput :
    npProd [1, 256] = 256 ∧ benchSpeed [1, 256] 2 = 128 := by
  refine ⟨rfl, ?_⟩
  show ((npProd [1, 256] : ℕ) : ℚ) / 2 = 128
  norm_num [npProd]

/-- C9: `compute_tflops` is a pure closed-form function of its
arguments: for every batch size, sequence length, layer count, hidden
size, vocabulary size, device count and positive latency it returns
exactly the formula the specification states, with factor 72 (96 when
activation checkpointing is on). -/
theorem compute_tflops_closed_form
    (B S L H V G t : ℚ) (ca : Bool) (ht : 0 < t) :
    compute_tflops B S L H V G t ca = tflopsClaimFormula B S L H V G t ca := by
  cases ca <;> rfl

theorem compute_tflops_closed_form_witness :
    compute_tflops 1 128 24 1024 50272 8 2 false =
      tflopsClaimFormula 1 128 24 1024 50272 8 2 false :=
  compute_tflops_closed_form 1 128 24 1024 50272 8 2 false (by norm_num)

end TextGen
